import Mathlib

/-!
Verification development for the repository's disposal registry ("Bin") and
two-phase component lifecycle (src/src/index.client.ts and src/src/index.server.ts).

Modelling notes for the Bin (both files):
The source stores a singly linked list of nodes with `head` and `tail` fields.
`add` allocates a node, sets `head ??= node`, links `tail.next = node` and moves
`tail`.  Since `tail` always points at the most recently allocated node (neither
`destroy` nor anything else ever moves it back), every node's `next` pointer is
its allocation successor, forever.  The whole mutable state is therefore captured
by the allocation-ordered list of items plus the index the `head` pointer is at
(`none` when `head` is `undefined`).  Two ghost fields instrument observations:
`trace` logs every disposal effect in order, and `fired` holds the captured
mutable flags of once-guarded function items (see `Item.reenterOnce`).
-/

namespace Scripts

/-- The kinds of `Bin.Item` of the source: a function `() => unknown`, an
`RBXScriptConnection`, a `thread`, an object with `.destroy()`, an object with
`.Destroy()`.  Function items are arbitrary closures in the source; they are
embedded by a closed set of behaviours sufficient for the claims: a plain
callback, and a closure that re-enters `bin.destroy()` the first time it is
invoked (`reenterOnce`, carrying the captured guard flag in `Bin.fired`). -/
inductive Item where
  | callback (id : Nat)
  | connection (id : Nat)
  | thread (id : Nat)
  | destroyable (id : Nat)
  | destroyableU (id : Nat)
  | reenterOnce (id : Nat)
deriving DecidableEq, Repr

/-- Observable disposal effects, one per dispatch arm of `Bin.destroy`:
`called id` = the function item was invoked, `disconnected id` = the
connection's `Disconnect()` ran, `cancelled id` = `task.cancel(thread)` ran,
`destroyed id` = the object's `.destroy()` ran, `destroyedU id` = the object's
`.Destroy()` ran. -/
inductive Event where
  | called (id : Nat)
  | disconnected (id : Nat)
  | cancelled (id : Nat)
  | destroyed (id : Nat)
  | destroyedU (id : Nat)
deriving DecidableEq, Repr

/-- The disposal effect the source's tag dispatch produces for each item kind
(`typeIs function` / `typeIs RBXScriptConnection` / `typeIs thread` /
`"destroy" in item` / `"Destroy" in item`).  A `reenterOnce` closure is a
function item, so invoking it is observed as `called`. -/
def disposeEvent : Item → Event
  | Item.callback id => Event.called id
  | Item.connection id => Event.disconnected id
  | Item.thread id => Event.cancelled id
  | Item.destroyable id => Event.destroyed id
  | Item.destroyableU id => Event.destroyedU id
  | Item.reenterOnce id => Event.called id

/-- An item is plain when its disposal action does not itself touch the Bin. -/
def Item.plain : Item → Bool
  | Item.reenterOnce _ => false
  | _ => true

/-- The Bin state: allocation-ordered items, the index `head` points at
(`none` = `undefined`), plus the ghost fields described in the header. -/
structure Bin where
  items : List Item
  headIdx : Option Nat
  fired : List Nat
  trace : List Event
deriving DecidableEq, Repr

/-- Append one observable disposal effect to the log. -/
def Bin.emit (s : Bin) (e : Event) : Bin :=
  { s with trace := s.trace ++ [e] }

/-- `Bin.add` of both files (state effect): allocate a node at the tail
(`items` grows by one) and set `head ??= node` (the head index is filled only
when it was `undefined`, and the fresh node's index is `items.length`). -/
def Bin.add (s : Bin) (i : Item) : Bin :=
  { s with
    items := s.items ++ [i]
    headIdx :=
      match s.headIdx with
      | some h => some h
      | none => some s.items.length }

/-- The drain loop of `Bin.destroy` in index.client.ts:

  let head = this.head;
  while (head) { const { item } = head; <dispatch>; head = head.next; this.head = head; }

`fuel` bounds the recursion depth (the source loop does not terminate for
adversarial re-entrant closures); every theorem below supplies enough fuel for
the runs it talks about.  The cursor argument is the local `head`; the state's
`headIdx` is the field `this.head`, updated after each disposal exactly as in
the source.  A `reenterOnce` function item whose flag is still unset calls
`this.destroy()`, i.e. re-drains from the current `this.head`.  The
`items[i]? = none` branch returns the state unchanged; it is unreachable,
since a live cursor always points at an allocated node. -/
def Bin.drainFrom : Nat → Option Nat → Bin → Bin
  | 0, _, s => s
  | _ + 1, none, s => s
  | fuel + 1, some i, s =>
    match s.items[i]? with
    | none => s
    | some it =>
      let s1 :=
        match it with
        | Item.callback id => s.emit (Event.called id)
        | Item.connection id => s.emit (Event.disconnected id)
        | Item.thread id => s.emit (Event.cancelled id)
        | Item.destroyable id => s.emit (Event.destroyed id)
        | Item.destroyableU id => s.emit (Event.destroyedU id)
        | Item.reenterOnce id =>
          if id ∈ s.fired then s.emit (Event.called id)
          else
            let s2 := { s.emit (Event.called id) with fired := id :: s.fired }
            Bin.drainFrom fuel s2.headIdx s2
      let h := if i + 1 < s1.items.length then some (i + 1) else none
      Bin.drainFrom fuel h { s1 with headIdx := h }

/-- `Bin.destroy` of index.client.ts: start the drain at `this.head`. -/
def Bin.destroy (fuel : Nat) (s : Bin) : Bin :=
  Bin.drainFrom fuel s.headIdx s

/-- The drain loop of `Bin.destroy` in index.server.ts:

  while (this.head) { const item = this.head.item; <dispatch>; this.head = this.head.next; }

It re-reads the `this.head` field each iteration instead of keeping a local
cursor.  The read of `this.head.next` after the dispatch is modelled by the
match on `s1.headIdx`; if a re-entrant drain had emptied the bin meanwhile that
read would raise in the source (indexing nil), a case no theorem below reaches
— the `none` arm stops, and all server-side theorems quantify over plain items
only. -/
def Bin.destroyServer : Nat → Bin → Bin
  | 0, s => s
  | fuel + 1, s =>
    match s.headIdx with
    | none => s
    | some i =>
      match s.items[i]? with
      | none => s
      | some it =>
        let s1 :=
          match it with
          | Item.callback id => s.emit (Event.called id)
          | Item.connection id => s.emit (Event.disconnected id)
          | Item.thread id => s.emit (Event.cancelled id)
          | Item.destroyable id => s.emit (Event.destroyed id)
          | Item.destroyableU id => s.emit (Event.destroyedU id)
          | Item.reenterOnce id =>
            if id ∈ s.fired then s.emit (Event.called id)
            else
              let s2 := { s.emit (Event.called id) with fired := id :: s.fired }
              Bin.destroyServer fuel s2
        match s1.headIdx with
        | none => s1
        | some j =>
          let h := if j + 1 < s1.items.length then some (j + 1) else none
          Bin.destroyServer fuel { s1 with headIdx := h }

/-- `Bin.isEmpty` of both files: `this.head === undefined`. -/
def Bin.isEmpty (s : Bin) : Bool :=
  s.headIdx.isNone

/-- A freshly constructed Bin. -/
def Bin.empty : Bin :=
  { items := [], headIdx := none, fired := [], trace := [] }

/-- A Bin built by a sequence of `add` calls on a fresh Bin. -/
def Bin.ofItems (items : List Item) : Bin :=
  items.foldl Bin.add Bin.empty

/-- The value an `add` call hands back: the client file's `add` ends in
`return this` (the registry), the server file's `add` ends in `return item`. -/
inductive AddRet where
  | registry
  | item (i : Item)
deriving DecidableEq, Repr

/-- `Bin.add` of index.client.ts including its return value: `return this`. -/
def Bin.addClient (s : Bin) (i : Item) : Bin × AddRet :=
  (s.add i, AddRet.registry)

/-- `Bin.add` of index.server.ts including its return value: `return item`. -/
def Bin.addServer (s : Bin) (i : Item) : Bin × AddRet :=
  (s.add i, AddRet.item i)

/-!
The component lifecycle of index.client.ts.

`BaseComponent.run` is `this.onInit(); if (!this.destructed) this.onStart();`.
`onInit` is an overridable hook (the base registers the `Destroying`
connection, subclasses register further items, and a hook may call
`this.destroy()`); dynamic dispatch is embedded by parametrising `run` with
the init program actually executed, a list of the two state effects a hook
performs on this object: adding an item to `_cleanup`, or calling
`this.destroy()`.  `onStart` of the base sets `active = true`.  The ghost
counters `initCount`/`startCount` record how many times the two hooks were
invoked; they have no effect on behaviour. -/

/-- One state effect of an `onInit` override body. -/
inductive InitAct where
  | addItem (i : Item)
  | callDestroy
deriving DecidableEq, Repr

/-- The `BaseComponent` state of index.client.ts: the owned `_cleanup` Bin and
the `active` / `destructed` flags, plus the two ghost hook counters. -/
structure BaseComponent where
  cleanup : Bin
  active : Bool
  destructed : Bool
  initCount : Nat
  startCount : Nat
deriving DecidableEq, Repr

/-- A freshly constructed component. -/
def BaseComponent.new : BaseComponent :=
  { cleanup := Bin.empty, active := false, destructed := false, initCount := 0, startCount := 0 }

/-- `BaseComponent.destroy`:
`if (this.destructed) return; this._cleanup.destroy(); this.destructed = true; this.active = false;`
The inner Bin drain is given fuel `items.length + 1`, which completes the drain
exactly whenever the registered disposal actions are plain (connections,
callbacks, …); no theorem below puts re-entrant closures in a component's bin. -/
def BaseComponent.destroy (c : BaseComponent) : BaseComponent :=
  if c.destructed then c
  else
    { c with
      cleanup := Bin.destroy (c.cleanup.items.length + 1) c.cleanup
      destructed := true
      active := false }

/-- Execute an `onInit` body: each action either adds to `_cleanup` or calls
`this.destroy()`. -/
def BaseComponent.runInit : List InitAct → BaseComponent → BaseComponent
  | [], c => c
  | InitAct.addItem i :: rest, c =>
    BaseComponent.runInit rest { c with cleanup := c.cleanup.add i }
  | InitAct.callDestroy :: rest, c =>
    BaseComponent.runInit rest c.destroy

/-- `BaseComponent.run`: `this.onInit(); if (!this.destructed) this.onStart();`
with `onStart` of the base setting `active = true`.  There is no guard against
being called again. -/
def BaseComponent.run (p : List InitAct) (c : BaseComponent) : BaseComponent :=
  let c1 := BaseComponent.runInit p { c with initCount := c.initCount + 1 }
  if c1.destructed then c1
  else { c1 with active := true, startCount := c1.startCount + 1 }

/-- `BaseComponent.isActive`: `return this.active`. -/
def BaseComponent.isActive (c : BaseComponent) : Bool :=
  c.active

/-- A lifecycle call made on a component from outside after its first `run`. -/
inductive LifecycleOp where
  | runOp (p : List InitAct)
  | destroyOp
deriving DecidableEq, Repr

/-- Apply one lifecycle call. -/
def BaseComponent.applyOp (c : BaseComponent) : LifecycleOp → BaseComponent
  | LifecycleOp.runOp p => c.run p
  | LifecycleOp.destroyOp => c.destroy

/-- Apply a sequence of lifecycle calls. -/
def BaseComponent.applyOps (c : BaseComponent) (ops : List LifecycleOp) : BaseComponent :=
  ops.foldl BaseComponent.applyOp c

/-!
The character wrapper (`CharacterComponent`) of index.client.ts and its
tool-tracking state, and the `EntityComponent` subclass with its static
`attached` registry.

The constructor stores `instance.WaitForChild("HumanoidRootPart", 5)` and
`instance.WaitForChild("Humanoid", 5)` — calls that return the child if it
appears within the bounded wait and `undefined` otherwise — through unchecked
casts, then schedules `task.defer(() => this.run())`.  The outcome of each
bounded wait is an oracle argument (`Option Nat`, a child identity or `none`).
External engine objects (tools, players, models) are identities (`Nat`).

Tool tracking: `tools` is the ordered array, `ttools` the `_tools` membership
set, `equipped` the equipped set (sets are lists kept duplicate-free by
insert-if-absent, matching JS `Set` membership semantics).  `lastParent` is a
ghost log of the parent reported by the last `AncestryChanged` event per tool;
the handlers attached in `onTool` are live exactly while the tool is in
`_tools` (they are connected when it is added and disconnected by the
`Destroying` handler that also removes it), so the event semantics below gates
them on membership in `ttools`. -/

/-- The `CharacterComponent` state. -/
structure CharacterComponent where
  instanceId : Nat
  clientId : Option Nat
  root : Option Nat
  humanoid : Option Nat
  runScheduled : Bool
  tools : List Nat
  ttools : List Nat
  equipped : List Nat
  lastParent : List (Nat × Option Nat)
  base : BaseComponent
deriving DecidableEq, Repr

/-- A freshly constructed character wrapper around instance `iid` for an
optional client, as the constructor leaves it: the two bounded-wait results are
stored unchecked and `run` has been deferred. -/
def CharacterComponent.new (iid : Nat) (client rootChild humChild : Option Nat) :
    CharacterComponent :=
  { instanceId := iid, clientId := client, root := rootChild, humanoid := humChild,
    runScheduled := true, tools := [], ttools := [], equipped := [], lastParent := [],
    base := BaseComponent.new }

/-- The `CharacterComponent` constructor.  `rootChild` / `humChild` are the
oracle outcomes of the two bounded waits (`none` = the child never appeared
within the bound).  The source performs no check on either result — the casts
`as BasePart` / `as Humanoid` are type-level only — and contains no throw, so
construction always succeeds; `Except` is the error channel construction
failure would use, and `Except.error` is never produced. -/
def CharacterComponent.construct (iid : Nat) (client rootChild humChild : Option Nat) :
    Except String CharacterComponent :=
  Except.ok (CharacterComponent.new iid client rootChild humChild)

/-- Insert into a JS `Set` modelled as a duplicate-free list. -/
def listInsert (t : Nat) (l : List Nat) : List Nat :=
  if t ∈ l then l else t :: l

/-- `onEquipped` of `CharacterComponent`: `this.equipped.add(tool)`. -/
def CharacterComponent.onEquipped (c : CharacterComponent) (t : Nat) : CharacterComponent :=
  { c with equipped := listInsert t c.equipped }

/-- `onUnequipped` of `CharacterComponent`: `this.equipped.delete(tool)`. -/
def CharacterComponent.onUnequipped (c : CharacterComponent) (t : Nat) : CharacterComponent :=
  { c with equipped := c.equipped.erase t }

/-- `onPossibleTool`: `if (tool.IsA("Tool") && !_tools.has(tool)) { tools.push(tool);
_tools.add(tool); this.onTool(tool); }` — `onTool` connects the two listeners,
which the event semantics represents by membership in `ttools`. -/
def CharacterComponent.onPossibleTool (c : CharacterComponent) (t : Nat) (isTool : Bool) :
    CharacterComponent :=
  if isTool = true ∧ t ∉ c.ttools then
    { c with tools := c.tools ++ [t], ttools := t :: c.ttools }
  else c

/-- The `AncestryChanged` handler attached in `onTool`:
`if (parent === this.instance) this.onEquipped(tool); else if (parent !== undefined)
this.onUnequipped(tool);` — note the `parent === undefined` case does nothing.
The physical parent change is always recorded in the ghost `lastParent` log;
the handler body runs only while the tool is tracked (listener live). -/
def CharacterComponent.onAncestryChanged (c : CharacterComponent) (t : Nat) (p : Option Nat) :
    CharacterComponent :=
  let c1 := { c with lastParent := (t, p) :: c.lastParent }
  if t ∈ c.ttools then
    if p = some c.instanceId then c1.onEquipped t
    else if p ≠ none then c1.onUnequipped t
    else c1
  else c1

/-- The `Destroying` handler attached in `onTool`: `ancestry.Disconnect();
_tools.delete(tool); equipped.delete(tool); tools.remove(tools.indexOf(tool));`
(the disconnect is represented by the removal from `ttools`, which gates the
ancestry handler). -/
def CharacterComponent.onToolDestroying (c : CharacterComponent) (t : Nat) : CharacterComponent :=
  if t ∈ c.ttools then
    { c with
      ttools := c.ttools.erase t
      equipped := c.equipped.erase t
      tools := c.tools.erase t }
  else c

/-- An external engine event the tool-tracking state reacts to: a child handed
to `onPossibleTool` (initial scan or `ChildAdded`, with whether it `IsA Tool`),
an `AncestryChanged` notification for a tool, or a tool's `Destroying`. -/
inductive CharEvent where
  | possibleTool (t : Nat) (isTool : Bool)
  | ancestry (t : Nat) (parent : Option Nat)
  | toolDestroying (t : Nat)
deriving DecidableEq, Repr

/-- Dispatch one external event. -/
def CharacterComponent.step (c : CharacterComponent) : CharEvent → CharacterComponent
  | CharEvent.possibleTool t b => c.onPossibleTool t b
  | CharEvent.ancestry t p => c.onAncestryChanged t p
  | CharEvent.toolDestroying t => c.onToolDestroying t

/-- Run a sequence of external events. -/
def CharacterComponent.replay (c : CharacterComponent) (evs : List CharEvent) :
    CharacterComponent :=
  evs.foldl CharacterComponent.step c

/-- The parent a tool was last observed at (`none` both for `undefined` and for
a tool whose parent was never reported). -/
def CharacterComponent.parentOf (c : CharacterComponent) (t : Nat) : Option Nat :=
  match c.lastParent.lookup t with
  | some p => p
  | none => none

/-- The static `attached` map of `EntityComponent`: engine instance identity to
component identity, JS `Map` set/get semantics. -/
abbrev AttachedMap := List (Nat × Nat)

/-- `Map.set`: the key now maps to `v` (membership semantics of JS `Map`). -/
def AttachedMap.set (m : AttachedMap) (k v : Nat) : AttachedMap :=
  (k, v) :: m.filter (fun kv => kv.1 ≠ k)

/-- `Map.get`: the current mapping of `k`, if any. -/
def AttachedMap.get (m : AttachedMap) (k : Nat) : Option Nat :=
  match m.lookup k with
  | some v => some v
  | none => none

/-- An `EntityComponent`: its own object identity `cid` plus the inherited
`CharacterComponent` state. -/
structure EntityComponent where
  cid : Nat
  char : CharacterComponent
deriving DecidableEq, Repr

/-- `EntityComponent.run`: `super.run(); EntityComponent.attached.set(this.instance, this);`
(`p` is the init program the inherited `run` executes through `onInit` dispatch). -/
def EntityComponent.run (e : EntityComponent) (p : List InitAct) (m : AttachedMap) :
    EntityComponent × AttachedMap :=
  ({ e with char := { e.char with base := e.char.base.run p } },
    m.set e.char.instanceId e.cid)

/-- `EntityComponent.destroy`: the override is exactly `super.destroy();` — it
never touches the `attached` map. -/
def EntityComponent.destroy (e : EntityComponent) (m : AttachedMap) :
    EntityComponent × AttachedMap :=
  ({ e with char := { e.char with base := e.char.base.destroy } }, m)

/-- `EntityComponent.getComponent`: `return EntityComponent.attached.get(instance)`. -/
def EntityComponent.getComponent (m : AttachedMap) (k : Nat) : Option Nat :=
  AttachedMap.get m k

/-!
Lemmas about the Bin drain.  `Bin.cursor pre post` is the cursor value at the
moment the drain has disposed exactly the items of `pre` and `post` remain:
`none` when nothing remains, otherwise the index of the first remaining item.
-/

/-- Cursor position with `pre` disposed and `post` remaining. -/
def Bin.cursor (pre post : List Item) : Option Nat :=
  match post with
  | [] => none
  | _ :: _ => some pre.length

lemma getElem_append_mid (pre : List Item) (it : Item) (post : List Item) :
    (pre ++ it :: post)[pre.length]? = some it := by
  induction pre with
  | nil => simp
  | cons a pre ih => simpa using ih

lemma Bin.drainFrom_nilCursor (fuel : Nat) (s : Bin) : Bin.drainFrom fuel none s = s := by
  cases fuel <;> rfl

lemma Bin.destroyServer_of_none (fuel : Nat) (s : Bin) (h : s.headIdx = none) :
    Bin.destroyServer fuel s = s := by
  cases fuel with
  | zero => rfl
  | succ fuel => simp only [Bin.destroyServer, h]

lemma Bin.drainFrom_step (fuel : Nat) (pre : List Item) (it : Item) (post : List Item)
    (hp : it.plain = true) (fired : List Nat) (trace : List Event) :
    Bin.drainFrom (fuel + 1) (some pre.length)
        ⟨pre ++ it :: post, some pre.length, fired, trace⟩
      = Bin.drainFrom fuel (Bin.cursor (pre ++ [it]) post)
          ⟨pre ++ it :: post, Bin.cursor (pre ++ [it]) post, fired,
            trace ++ [disposeEvent it]⟩ := by
  have hget : (pre ++ it :: post)[pre.length]? = some it := getElem_append_mid pre it post
  have hcur : (if pre.length + 1 < (pre ++ it :: post).length then some (pre.length + 1)
        else none)
      = Bin.cursor (pre ++ [it]) post := by
    cases post with
    | nil => simp [Bin.cursor]
    | cons b post' =>
      have hlt : pre.length + 1 < (pre ++ it :: b :: post').length := by
        simp [List.length_append]
      rw [if_pos hlt]
      simp [Bin.cursor]
  cases it with
  | reenterOnce id => simp [Item.plain] at hp
  | callback id =>
    simp only [Bin.drainFrom, hget, Bin.emit, disposeEvent]
    rw [hcur]
  | connection id =>
    simp only [Bin.drainFrom, hget, Bin.emit, disposeEvent]
    rw [hcur]
  | thread id =>
    simp only [Bin.drainFrom, hget, Bin.emit, disposeEvent]
    rw [hcur]
  | destroyable id =>
    simp only [Bin.drainFrom, hget, Bin.emit, disposeEvent]
    rw [hcur]
  | destroyableU id =>
    simp only [Bin.drainFrom, hget, Bin.emit, disposeEvent]
    rw [hcur]

lemma Bin.drainFrom_plain (post : List Item) :
    ∀ (pre : List Item) (fuel : Nat) (fired : List Nat) (trace : List Event),
      (∀ it ∈ post, it.plain = true) → post.length < fuel →
      Bin.drainFrom fuel (Bin.cursor pre post) ⟨pre ++ post, Bin.cursor pre post, fired, trace⟩
        = ⟨pre ++ post, none, fired, trace ++ post.map disposeEvent⟩ := by
  induction post with
  | nil =>
    intro pre fuel fired trace _ _
    simp [Bin.cursor, Bin.drainFrom_nilCursor]
  | cons it post ih =>
    intro pre fuel fired trace hp hf
    cases fuel with
    | zero => omega
    | succ fuel =>
      have hcur0 : Bin.cursor pre (it :: post) = some pre.length := rfl
      rw [hcur0]
      rw [Bin.drainFrom_step fuel pre it post (hp it (by simp)) fired trace]
      have hrw : pre ++ it :: post = (pre ++ [it]) ++ post := by simp
      rw [hrw]
      rw [ih (pre ++ [it]) fuel fired (trace ++ [disposeEvent it])
        (by intro x hx; exact hp x (by simp [hx])) (by simpa using hf)]
      simp

lemma Bin.destroyServer_step (fuel : Nat) (pre : List Item) (it : Item) (post : List Item)
    (hp : it.plain = true) (fired : List Nat) (trace : List Event) :
    Bin.destroyServer (fuel + 1) ⟨pre ++ it :: post, some pre.length, fired, trace⟩
      = Bin.destroyServer fuel
          ⟨pre ++ it :: post, Bin.cursor (pre ++ [it]) post, fired,
            trace ++ [disposeEvent it]⟩ := by
  have hget : (pre ++ it :: post)[pre.length]? = some it := getElem_append_mid pre it post
  have hcur : (if pre.length + 1 < (pre ++ it :: post).length then some (pre.length + 1)
        else none)
      = Bin.cursor (pre ++ [it]) post := by
    cases post with
    | nil => simp [Bin.cursor]
    | cons b post' =>
      have hlt : pre.length + 1 < (pre ++ it :: b :: post').length := by
        simp [List.length_append]
      rw [if_pos hlt]
      simp [Bin.cursor]
  cases it with
  | reenterOnce id => simp [Item.plain] at hp
  | callback id =>
    simp only [Bin.destroyServer, hget, Bin.emit, disposeEvent]
    rw [hcur]
  | connection id =>
    simp only [Bin.destroyServer, hget, Bin.emit, disposeEvent]
    rw [hcur]
  | thread id =>
    simp only [Bin.destroyServer, hget, Bin.emit, disposeEvent]
    rw [hcur]
  | destroyable id =>
    simp only [Bin.destroyServer, hget, Bin.emit, disposeEvent]
    rw [hcur]
  | destroyableU id =>
    simp only [Bin.destroyServer, hget, Bin.emit, disposeEvent]
    rw [hcur]

lemma Bin.destroyServer_plain (post : List Item) :
    ∀ (pre : List Item) (fuel : Nat) (fired : List Nat) (trace : List Event),
      (∀ it ∈ post, it.plain = true) → post.length < fuel →
      Bin.destroyServer fuel ⟨pre ++ post, Bin.cursor pre post, fired, trace⟩
        = ⟨pre ++ post, none, fired, trace ++ post.map disposeEvent⟩ := by
  induction post with
  | nil =>
    intro pre fuel fired trace _ _
    rw [Bin.destroyServer_of_none fuel _ rfl]
    simp [Bin.cursor]
  | cons it post ih =>
    intro pre fuel fired trace hp hf
    cases fuel with
    | zero => omega
    | succ fuel =>
      have hcur0 : Bin.cursor pre (it :: post) = some pre.length := rfl
      rw [hcur0]
      rw [Bin.destroyServer_step fuel pre it post (hp it (by simp)) fired trace]
      have hrw : pre ++ it :: post = (pre ++ [it]) ++ post := by simp
      rw [hrw]
      rw [ih (pre ++ [it]) fuel fired (trace ++ [disposeEvent it])
        (by intro x hx; exact hp x (by simp [hx])) (by simpa using hf)]
      simp

lemma Bin.foldl_add_some (rest : List Item) :
    ∀ (pre : List Item) (k : Nat) (fired : List Nat) (trace : List Event),
      rest.foldl Bin.add ⟨pre, some k, fired, trace⟩ = ⟨pre ++ rest, some k, fired, trace⟩ := by
  induction rest with
  | nil => intro pre k fired trace; simp
  | cons i rest ih =>
    intro pre k fired trace
    simp only [List.foldl_cons]
    rw [show Bin.add ⟨pre, some k, fired, trace⟩ i = ⟨pre ++ [i], some k, fired, trace⟩ from rfl]
    rw [ih]
    simp

lemma Bin.foldl_add_none (i : Item) (rest : List Item) (pre : List Item) (fired : List Nat)
    (trace : List Event) :
    (i :: rest).foldl Bin.add ⟨pre, none, fired, trace⟩
      = ⟨pre ++ i :: rest, some pre.length, fired, trace⟩ := by
  simp only [List.foldl_cons]
  rw [show Bin.add ⟨pre, none, fired, trace⟩ i = ⟨pre ++ [i], some pre.length, fired, trace⟩
    from rfl]
  rw [Bin.foldl_add_some]
  simp

lemma Bin.ofItems_nil : Bin.ofItems [] = Bin.empty := rfl

lemma Bin.ofItems_cons (i : Item) (rest : List Item) :
    Bin.ofItems (i :: rest) = ⟨i :: rest, some 0, [], []⟩ := by
  show (i :: rest).foldl Bin.add ⟨[], none, [], []⟩ = _
  rw [Bin.foldl_add_none]
  rfl

lemma Bin.destroy_of_none (fuel : Nat) (s : Bin) (h : s.headIdx = none) :
    Bin.destroy fuel s = s := by
  rw [Bin.destroy, h, Bin.drainFrom_nilCursor]

/-- A full client-side drain of a Bin holding plain items: every item is
disposed once, head to tail, and the head pointer ends at `undefined`. -/
lemma Bin.destroy_ofItems (items : List Item) (hp : ∀ it ∈ items, it.plain = true) :
    Bin.destroy (items.length + 1) (Bin.ofItems items)
      = ⟨items, none, [], items.map disposeEvent⟩ := by
  cases items with
  | nil => rfl
  | cons i rest =>
    rw [Bin.ofItems_cons, Bin.destroy]
    have h := Bin.drainFrom_plain (i :: rest) [] ((i :: rest).length + 1) [] [] hp (by omega)
    simpa [Bin.cursor] using h

/-- A full server-side drain of a Bin holding plain items. -/
lemma Bin.destroyServer_ofItems (items : List Item) (hp : ∀ it ∈ items, it.plain = true) :
    Bin.destroyServer (items.length + 1) (Bin.ofItems items)
      = ⟨items, none, [], items.map disposeEvent⟩ := by
  cases items with
  | nil => rfl
  | cons i rest =>
    rw [Bin.ofItems_cons]
    have h := Bin.destroyServer_plain (i :: rest) [] ((i :: rest).length + 1) [] [] hp (by omega)
    simpa [Bin.cursor] using h

/-! Lemmas about `add` sequences and the component lifecycle. -/

lemma Bin.foldl_add_items (is : List Item) :
    ∀ b : Bin, (is.foldl Bin.add b).items = b.items ++ is := by
  induction is with
  | nil => intro b; simp
  | cons i is ih => intro b; simp [ih, Bin.add]

lemma Bin.add_isEmpty (s : Bin) (i : Item) : (s.add i).isEmpty = false := by
  cases h : s.headIdx <;> simp [Bin.add, Bin.isEmpty, h]

lemma BaseComponent.destroy_destructed (c : BaseComponent) : c.destroy.destructed = true := by
  rw [BaseComponent.destroy]
  split
  · assumption
  · rfl

lemma BaseComponent.destroy_of_destructed (c : BaseComponent) (h : c.destructed = true) :
    c.destroy = c := by
  rw [BaseComponent.destroy, if_pos h]

lemma BaseComponent.destroy_active (c : BaseComponent) (h : c.active = false) :
    c.destroy.active = false := by
  rw [BaseComponent.destroy]
  split
  · exact h
  · rfl

lemma BaseComponent.destroy_initCount (c : BaseComponent) :
    c.destroy.initCount = c.initCount := by
  rw [BaseComponent.destroy]
  split <;> rfl

lemma BaseComponent.destroy_startCount (c : BaseComponent) :
    c.destroy.startCount = c.startCount := by
  rw [BaseComponent.destroy]
  split <;> rfl

lemma BaseComponent.runInit_initCount (p : List InitAct) :
    ∀ c : BaseComponent, (BaseComponent.runInit p c).initCount = c.initCount := by
  induction p with
  | nil => intro c; rfl
  | cons a p ih =>
    intro c
    cases a with
    | addItem i => rw [BaseComponent.runInit, ih]
    | callDestroy => rw [BaseComponent.runInit, ih, BaseComponent.destroy_initCount]

lemma BaseComponent.runInit_startCount (p : List InitAct) :
    ∀ c : BaseComponent, (BaseComponent.runInit p c).startCount = c.startCount := by
  induction p with
  | nil => intro c; rfl
  | cons a p ih =>
    intro c
    cases a with
    | addItem i => rw [BaseComponent.runInit, ih]
    | callDestroy => rw [BaseComponent.runInit, ih, BaseComponent.destroy_startCount]

lemma BaseComponent.runInit_destructed_mono (p : List InitAct) :
    ∀ c : BaseComponent, c.destructed = true → (BaseComponent.runInit p c).destructed = true := by
  induction p with
  | nil => intro c h; exact h
  | cons a p ih =>
    intro c h
    cases a with
    | addItem i => rw [BaseComponent.runInit]; exact ih _ h
    | callDestroy => rw [BaseComponent.runInit]; exact ih _ (BaseComponent.destroy_destructed c)

lemma BaseComponent.runInit_destroy_mem (p : List InitAct) (hmem : InitAct.callDestroy ∈ p) :
    ∀ c : BaseComponent, (BaseComponent.runInit p c).destructed = true := by
  induction p with
  | nil => simp at hmem
  | cons a p ih =>
    intro c
    cases a with
    | addItem i =>
      rw [BaseComponent.runInit]
      exact ih (by simpa using hmem) _
    | callDestroy =>
      rw [BaseComponent.runInit]
      exact BaseComponent.runInit_destructed_mono p _ (BaseComponent.destroy_destructed c)

lemma BaseComponent.runInit_active_false (p : List InitAct) :
    ∀ c : BaseComponent, c.active = false → (BaseComponent.runInit p c).active = false := by
  induction p with
  | nil => intro c h; exact h
  | cons a p ih =>
    intro c h
    cases a with
    | addItem i => rw [BaseComponent.runInit]; exact ih _ h
    | callDestroy => rw [BaseComponent.runInit]; exact ih _ (BaseComponent.destroy_active c h)

lemma BaseComponent.runInit_addItems (is : List Item) :
    ∀ c : BaseComponent, BaseComponent.runInit (is.map InitAct.addItem) c
      = { c with cleanup := is.foldl Bin.add c.cleanup } := by
  induction is with
  | nil => intro c; simp [BaseComponent.runInit]
  | cons i is ih =>
    intro c
    simp only [List.map_cons, BaseComponent.runInit, List.foldl_cons]
    rw [ih]

/-- A component that is destructed and inactive stays destructed and inactive,
and its `onStart` hook is never invoked, under any later lifecycle call. -/
lemma BaseComponent.applyOp_inv (c : BaseComponent) (op : LifecycleOp)
    (hd : c.destructed = true) (ha : c.active = false) :
    (c.applyOp op).destructed = true ∧ (c.applyOp op).active = false
      ∧ (c.applyOp op).startCount = c.startCount := by
  cases op with
  | destroyOp =>
    simp only [BaseComponent.applyOp]
    rw [BaseComponent.destroy_of_destructed c hd]
    exact ⟨hd, ha, rfl⟩
  | runOp p =>
    simp only [BaseComponent.applyOp, BaseComponent.run]
    have h1 : (BaseComponent.runInit p { c with initCount := c.initCount + 1 }).destructed
        = true := BaseComponent.runInit_destructed_mono p _ hd
    rw [if_pos h1]
    exact ⟨h1, BaseComponent.runInit_active_false p _ ha,
      BaseComponent.runInit_startCount p _⟩

lemma BaseComponent.applyOps_inv (ops : List LifecycleOp) :
    ∀ c : BaseComponent, c.destructed = true → c.active = false →
      (c.applyOps ops).destructed = true ∧ (c.applyOps ops).active = false
        ∧ (c.applyOps ops).startCount = c.startCount := by
  induction ops with
  | nil => intro c hd ha; exact ⟨hd, ha, rfl⟩
  | cons op ops ih =>
    intro c hd ha
    have h1 := BaseComponent.applyOp_inv c op hd ha
    have h2 := ih (c.applyOp op) h1.1 h1.2.1
    refine ⟨h2.1, h2.2.1, ?_⟩
    rw [BaseComponent.applyOps] at h2 ⊢
    simp only [List.foldl_cons]
    rw [h2.2.2, h1.2.2]

/-! Lemmas about the tool-tracking state. -/

lemma mem_listInsert (t x : Nat) (l : List Nat) : x ∈ listInsert t l ↔ x = t ∨ x ∈ l := by
  rw [listInsert]
  split
  · rename_i h
    constructor
    · intro hx
      exact Or.inr hx
    · rintro (rfl | hx)
      · exact h
      · exact hx
  · simp [List.mem_cons]

lemma listInsert_nodup (t : Nat) (l : List Nat) (h : l.Nodup) : (listInsert t l).Nodup := by
  rw [listInsert]
  split
  · exact h
  · rename_i hn
    simp [List.nodup_cons, hn, h]

lemma lookup_cons_self (t : Nat) (p : Option Nat) (l : List (Nat × Option Nat)) :
    List.lookup t ((t, p) :: l) = some p := by
  simp [List.lookup]

lemma lookup_cons_ne (x t : Nat) (h : x ≠ t) (p : Option Nat) (l : List (Nat × Option Nat)) :
    List.lookup x ((t, p) :: l) = List.lookup x l := by
  have hb : (x == t) = false := by simp [h]
  simp [List.lookup, hb]

/-- The tool-tracking invariant maintained across every external event: the
three containers are duplicate-free, the ordered `tools` array and the
`_tools` membership set hold the same tools, equipped tools are tracked, and
an equipped tool's last observed parent is the owning instance or `undefined`. -/
def CharacterComponent.Inv (c : CharacterComponent) : Prop :=
  c.tools.Nodup ∧ c.ttools.Nodup ∧ c.equipped.Nodup
    ∧ (∀ t, t ∈ c.tools ↔ t ∈ c.ttools)
    ∧ (∀ t, t ∈ c.equipped → t ∈ c.ttools)
    ∧ (∀ t, t ∈ c.equipped → c.parentOf t = some c.instanceId ∨ c.parentOf t = none)

lemma CharacterComponent.inv_new (iid : Nat) (client rc hc : Option Nat) :
    (CharacterComponent.new iid client rc hc).Inv := by
  refine ⟨List.nodup_nil, List.nodup_nil, List.nodup_nil, ?_, ?_, ?_⟩ <;> intro t <;> simp [CharacterComponent.new]

lemma CharacterComponent.inv_possibleTool (c : CharacterComponent) (t : Nat) (b : Bool)
    (h : c.Inv) : (c.onPossibleTool t b).Inv := by
  obtain ⟨h1, h2, h3, h4, h5, h6⟩ := h
  rw [CharacterComponent.onPossibleTool]
  split
  · rename_i hcond
    obtain ⟨-, hnt⟩ := hcond
    have hnt' : t ∉ c.tools := fun hmem => hnt ((h4 t).1 hmem)
    refine ⟨?_, ?_, h3, ?_, ?_, ?_⟩
    · simp [List.nodup_append, h1, hnt']
    · simp [List.nodup_cons, hnt, h2]
    · intro x
      have hx4 := h4 x
      simp only [List.mem_append, List.mem_singleton, List.mem_cons]
      tauto
    · intro x hx
      exact List.mem_cons_of_mem t (h5 x hx)
    · exact h6
  · exact ⟨h1, h2, h3, h4, h5, h6⟩

lemma CharacterComponent.ancestry_shape_equip (c : CharacterComponent) (t : Nat)
    (p : Option Nat) (hmem : t ∈ c.ttools) (hinst : p = some c.instanceId) :
    c.onAncestryChanged t p
      = { c with lastParent := (t, p) :: c.lastParent,
                 equipped := listInsert t c.equipped } := by
  rw [CharacterComponent.onAncestryChanged, if_pos hmem, if_pos hinst]
  rfl

lemma CharacterComponent.ancestry_shape_unequip (c : CharacterComponent) (t : Nat)
    (p : Option Nat) (hmem : t ∈ c.ttools) (hinst : p ≠ some c.instanceId) (hdef : p ≠ none) :
    c.onAncestryChanged t p
      = { c with lastParent := (t, p) :: c.lastParent,
                 equipped := c.equipped.erase t } := by
  rw [CharacterComponent.onAncestryChanged, if_pos hmem, if_neg hinst, if_pos hdef]
  rfl

lemma CharacterComponent.ancestry_shape_undef (c : CharacterComponent) (t : Nat)
    (p : Option Nat) (hmem : t ∈ c.ttools) (hinst : p ≠ some c.instanceId) (hdef : p = none) :
    c.onAncestryChanged t p = { c with lastParent := (t, p) :: c.lastParent } := by
  rw [CharacterComponent.onAncestryChanged, if_pos hmem, if_neg hinst, if_neg (by simp [hdef])]

lemma CharacterComponent.ancestry_shape_untracked (c : CharacterComponent) (t : Nat)
    (p : Option Nat) (hmem : t ∉ c.ttools) :
    c.onAncestryChanged t p = { c with lastParent := (t, p) :: c.lastParent } := by
  rw [CharacterComponent.onAncestryChanged, if_neg hmem]

lemma CharacterComponent.inv_ancestry (c : CharacterComponent) (t : Nat) (p : Option Nat)
    (h : c.Inv) : (c.onAncestryChanged t p).Inv := by
  obtain ⟨h1, h2, h3, h4, h5, h6⟩ := h
  have hpar : ∀ (c' : CharacterComponent), c'.lastParent = (t, p) :: c.lastParent →
      ∀ x, c'.parentOf x = if x = t then p else c.parentOf x := by
    intro c' hc' x
    by_cases hxt : x = t
    · subst hxt
      rw [CharacterComponent.parentOf, hc', lookup_cons_self, if_pos rfl]
    · rw [CharacterComponent.parentOf, hc', lookup_cons_ne x t hxt, if_neg hxt,
        CharacterComponent.parentOf]
  by_cases hmem : t ∈ c.ttools
  · by_cases hinst : p = some c.instanceId
    · rw [CharacterComponent.ancestry_shape_equip c t p hmem hinst]
      refine ⟨h1, h2, listInsert_nodup t _ h3, h4, ?_, ?_⟩
      · intro x hx
        rcases (mem_listInsert t x _).1 hx with rfl | hx'
        · exact hmem
        · exact h5 x hx'
      · intro x hx
        rw [hpar _ rfl x]
        by_cases hxt : x = t
        · rw [if_pos hxt]
          exact Or.inl hinst
        · rw [if_neg hxt]
          rcases (mem_listInsert t x _).1 hx with rfl | hx'
          · exact absurd rfl hxt
          · exact h6 x hx'
    · by_cases hdef : p = none
      · rw [CharacterComponent.ancestry_shape_undef c t p hmem hinst hdef]
        refine ⟨h1, h2, h3, h4, h5, ?_⟩
        intro x hx
        rw [hpar _ rfl x]
        by_cases hxt : x = t
        · rw [if_pos hxt]
          exact Or.inr hdef
        · rw [if_neg hxt]
          exact h6 x hx
      · rw [CharacterComponent.ancestry_shape_unequip c t p hmem hinst hdef]
        refine ⟨h1, h2, List.Nodup.erase t h3, h4, ?_, ?_⟩
        · intro x hx
          exact h5 x (List.mem_of_mem_erase hx)
        · intro x hx
          have hxt : x ≠ t := ((List.Nodup.mem_erase_iff h3).1 hx).1
          rw [hpar _ rfl x, if_neg hxt]
          exact h6 x (((List.Nodup.mem_erase_iff h3).1 hx).2)
  · rw [CharacterComponent.ancestry_shape_untracked c t p hmem]
    refine ⟨h1, h2, h3, h4, h5, ?_⟩
    intro x hx
    have hxt : x ≠ t := fun hf => hmem (hf ▸ h5 x hx)
    rw [hpar _ rfl x, if_neg hxt]
    exact h6 x hx

lemma CharacterComponent.inv_toolDestroying (c : CharacterComponent) (t : Nat)
    (h : c.Inv) : (c.onToolDestroying t).Inv := by
  obtain ⟨h1, h2, h3, h4, h5, h6⟩ := h
  rw [CharacterComponent.onToolDestroying]
  split
  · refine ⟨List.Nodup.erase t h1, List.Nodup.erase t h2, List.Nodup.erase t h3, ?_, ?_, ?_⟩
    · intro x
      rw [List.Nodup.mem_erase_iff h1, List.Nodup.mem_erase_iff h2, h4 x]
    · intro x hx
      obtain ⟨hxt, hxe⟩ := (List.Nodup.mem_erase_iff h3).1 hx
      exact (List.Nodup.mem_erase_iff h2).2 ⟨hxt, h5 x hxe⟩
    · intro x hx
      exact h6 x ((List.Nodup.mem_erase_iff h3).1 hx).2
  · exact ⟨h1, h2, h3, h4, h5, h6⟩

lemma CharacterComponent.inv_step (c : CharacterComponent) (e : CharEvent) (h : c.Inv) :
    (c.step e).Inv := by
  cases e with
  | possibleTool t b => exact CharacterComponent.inv_possibleTool c t b h
  | ancestry t p => exact CharacterComponent.inv_ancestry c t p h
  | toolDestroying t => exact CharacterComponent.inv_toolDestroying c t h

lemma CharacterComponent.inv_replay (evs : List CharEvent) :
    ∀ c : CharacterComponent, c.Inv → (c.replay evs).Inv := by
  induction evs with
  | nil => intro c h; exact h
  | cons e evs ih =>
    intro c h
    exact ih (c.step e) (CharacterComponent.inv_step c e h)

lemma CharacterComponent.step_instanceId (c : CharacterComponent) (e : CharEvent) :
    (c.step e).instanceId = c.instanceId := by
  cases e with
  | possibleTool t b =>
    rw [CharacterComponent.step, CharacterComponent.onPossibleTool]
    split <;> rfl
  | ancestry t p =>
    rw [CharacterComponent.step, CharacterComponent.onAncestryChanged]
    split
    · split
      · rfl
      · split <;> rfl
    · rfl
  | toolDestroying t =>
    rw [CharacterComponent.step, CharacterComponent.onToolDestroying]
    split <;> rfl

lemma CharacterComponent.replay_instanceId (evs : List CharEvent) :
    ∀ c : CharacterComponent, (c.replay evs).instanceId = c.instanceId := by
  induction evs with
  | nil => intro c; rfl
  | cons e evs ih =>
    intro c
    have hrec := ih (c.step e)
    rw [CharacterComponent.replay] at hrec ⊢
    simp only [List.foldl_cons]
    rw [hrec, CharacterComponent.step_instanceId]

/-!
The claims.
-/

/-- Claim C1: for every sequence of `add` calls on a Bin followed by a single
`destroy()` (the added disposal actions not themselves touching the Bin), the
disposal action of every added item executes exactly once, in insertion (FIFO)
order, with per-tag dispatch — in both the client drain and the server drain
the observed trace is exactly the per-item dispatch event of each item, in
insertion order. -/
theorem claim1_destroy_fifo_once (items : List Item)
    (hp : ∀ it ∈ items, it.plain = true) :
    (Bin.destroy (items.length + 1) (Bin.ofItems items)).trace = items.map disposeEvent
  ∧ (Bin.destroyServer (items.length + 1) (Bin.ofItems items)).trace
      = items.map disposeEvent := by
  rw [Bin.destroy_ofItems items hp, Bin.destroyServer_ofItems items hp]
  exact ⟨rfl, rfl⟩

/-- Witness for C1 at one item of each tag. -/
theorem claim1_destroy_fifo_once_witness :
    (Bin.destroy 6 (Bin.ofItems [Item.callback 0, Item.connection 1, Item.thread 2,
        Item.destroyable 3, Item.destroyableU 4])).trace
      = [Event.called 0, Event.disconnected 1, Event.cancelled 2, Event.destroyed 3,
          Event.destroyedU 4] :=
  (claim1_destroy_fifo_once
    [Item.callback 0, Item.connection 1, Item.thread 2, Item.destroyable 3, Item.destroyableU 4]
    (by decide)).1

/-- Claim C2, counterexample to the re-entrant half: a Bin holding a function
item that re-enters `destroy()` on its first invocation, followed by a plain
callback, disposes both items twice during a single outer `destroy()` call —
the cursor advances only after the action runs, so the inner drain revisits
the current node and the outer loop then replays the remainder. -/
theorem claim2_reentrant_double_dispose :
    (Bin.destroy 5 (Bin.ofItems [Item.reenterOnce 0, Item.callback 1])).trace
        = [Event.called 0, Event.called 0, Event.called 1, Event.called 1]
  ∧ (Bin.destroy 5 (Bin.ofItems [Item.reenterOnce 0, Item.callback 1])).trace.count
        (Event.called 1) = 2 :=
  ⟨by decide, by decide⟩

/-- Claim C2 as amended: a second sequential `destroy()` call — after the
first has completed — is a no-op on both the Bin (whatever extra fuel the
second call is given) and on a component, whose `destroy` is unconditionally
idempotent thanks to its `destructed` flag; a re-entrant `destroy()` from
within a disposal action, however, can dispose items a second time (see the
counterexample). -/
theorem claim2_sequential_destroy_idempotent :
    (∀ items : List Item, (∀ it ∈ items, it.plain = true) → ∀ fuel : Nat,
        Bin.destroy fuel (Bin.destroy (items.length + 1) (Bin.ofItems items))
          = Bin.destroy (items.length + 1) (Bin.ofItems items))
  ∧ ∀ c : BaseComponent, c.destroy.destroy = c.destroy := by
  constructor
  · intro items hp fuel
    rw [Bin.destroy_ofItems items hp]
    exact Bin.destroy_of_none fuel _ rfl
  · intro c
    exact BaseComponent.destroy_of_destructed _ (BaseComponent.destroy_destructed c)

/-- Witness for the amended C2. -/
theorem claim2_sequential_destroy_idempotent_witness :
    Bin.destroy 7 (Bin.destroy 2 (Bin.ofItems [Item.callback 0]))
        = Bin.destroy 2 (Bin.ofItems [Item.callback 0])
  ∧ BaseComponent.new.destroy.destroy = BaseComponent.new.destroy :=
  ⟨claim2_sequential_destroy_idempotent.1 [Item.callback 0] (by decide) 7,
    claim2_sequential_destroy_idempotent.2 BaseComponent.new⟩

/-- Claim C3, counterexample to the permanence half: after `destroy()` has
completed (the Bin reports empty), a later `add` re-fills the registry and
`isEmpty()` returns false again — `add` re-seats the head pointer because of
`this.head ??= node`. -/
theorem claim3_refill_after_destroy :
    (Bin.destroy 2 (Bin.ofItems [Item.callback 0])).isEmpty = true
  ∧ ((Bin.destroy 2 (Bin.ofItems [Item.callback 0])).add (Item.callback 1)).isEmpty
      = false :=
  ⟨by decide, by decide⟩

/-- Claim C3 as amended: `isEmpty()` is true on a fresh Bin, false immediately
after any `add` (in particular after the first), and true again once a
`destroy()` over plain items completes — but it stays true only until the next
`add`, which re-fills the registry. -/
theorem claim3_isEmpty_lifecycle :
    Bin.empty.isEmpty = true
  ∧ (∀ (s : Bin) (i : Item), (s.add i).isEmpty = false)
  ∧ (∀ items : List Item, (∀ it ∈ items, it.plain = true) →
        (Bin.destroy (items.length + 1) (Bin.ofItems items)).isEmpty = true) := by
  refine ⟨rfl, Bin.add_isEmpty, ?_⟩
  intro items hp
  rw [Bin.destroy_ofItems items hp]
  rfl

/-- Witness for the amended C3. -/
theorem claim3_isEmpty_lifecycle_witness :
    (Bin.empty.add (Item.callback 0)).isEmpty = false
  ∧ (Bin.destroy 2 (Bin.ofItems [Item.callback 0])).isEmpty = true :=
  ⟨claim3_isEmpty_lifecycle.2.1 Bin.empty (Item.callback 0),
    claim3_isEmpty_lifecycle.2.2 [Item.callback 0] (by decide)⟩

/-- Claim C4, counterexample: `BaseComponent.run` has no one-shot guard, so a
second `run()` call re-invokes `onInit` (here the base program registering the
`Destroying` connection) and `onStart`, duplicating the registry entry — the
second call is not a no-op. -/
theorem claim4_second_run_reruns_hooks :
    ((BaseComponent.new.run [InitAct.addItem (Item.connection 0)]).run
        [InitAct.addItem (Item.connection 0)]).initCount = 2
  ∧ ((BaseComponent.new.run [InitAct.addItem (Item.connection 0)]).run
        [InitAct.addItem (Item.connection 0)]).cleanup.items
      = [Item.connection 0, Item.connection 0]
  ∧ ((BaseComponent.new.run [InitAct.addItem (Item.connection 0)]).run
        [InitAct.addItem (Item.connection 0)]).startCount = 2 :=
  ⟨by decide, by decide, by decide⟩

/-- Claim C4 as amended: `run()` is unguarded — every call, including calls
after the first, invokes `onInit` again (and then `onStart`, unless the
destroyed flag is set), appending its registered items to the registry again;
repeated calls never raise an error (every call is an ordinary total state
update), but they are not no-ops. -/
theorem claim4_run_unguarded :
    (∀ (p : List InitAct) (c : BaseComponent), (c.run p).initCount = c.initCount + 1)
  ∧ (∀ (is : List Item) (c : BaseComponent),
        (c.run (is.map InitAct.addItem)).cleanup.items = c.cleanup.items ++ is)
  ∧ (∀ (is : List Item) (c : BaseComponent), c.destructed = false →
        (c.run (is.map InitAct.addItem)).startCount = c.startCount + 1) := by
  refine ⟨?_, ?_, ?_⟩
  · intro p c
    rw [BaseComponent.run]
    split
    · rw [BaseComponent.runInit_initCount]
    · show (BaseComponent.runInit p { c with initCount := c.initCount + 1 }).initCount
          = c.initCount + 1
      rw [BaseComponent.runInit_initCount]
  · intro is c
    rw [BaseComponent.run]
    split <;>
      simp [BaseComponent.runInit_addItems, Bin.foldl_add_items]
  · intro is c h
    rw [BaseComponent.run]
    have hd : (BaseComponent.runInit (is.map InitAct.addItem)
        { c with initCount := c.initCount + 1 }).destructed = false := by
      rw [BaseComponent.runInit_addItems]
      exact h
    rw [if_neg (by rw [hd]; exact Bool.false_ne_true)]
    show (BaseComponent.runInit (is.map InitAct.addItem)
        { c with initCount := c.initCount + 1 }).startCount + 1 = c.startCount + 1
    rw [BaseComponent.runInit_startCount]

/-- Witness for the amended C4. -/
theorem claim4_run_unguarded_witness :
    (BaseComponent.new.run []).initCount = BaseComponent.new.initCount + 1
  ∧ (BaseComponent.new.run ([Item.connection 0].map InitAct.addItem)).cleanup.items
      = BaseComponent.new.cleanup.items ++ [Item.connection 0]
  ∧ (BaseComponent.new.run (([] : List Item).map InitAct.addItem)).startCount
      = BaseComponent.new.startCount + 1 :=
  ⟨claim4_run_unguarded.1 [] BaseComponent.new,
    claim4_run_unguarded.2.1 [Item.connection 0] BaseComponent.new,
    claim4_run_unguarded.2.2 [] BaseComponent.new rfl⟩

/-- Claim C5, counterexample: an `EntityComponent` (identity 7, wrapping
instance 3) is run — which registers it — and then destroyed; its `destroy`
is only `super.destroy()` and never touches the static `attached` map, so
`getComponent` still returns the destroyed component instead of nothing. -/
theorem claim5_destroyed_entity_still_attached :
    EntityComponent.getComponent
        (EntityComponent.destroy
          (EntityComponent.run ⟨7, CharacterComponent.new 3 none none none⟩ [] []).1
          (EntityComponent.run ⟨7, CharacterComponent.new 3 none none none⟩ [] []).2).2
        3 = some 7 := by
  decide

/-- Claim C5 as amended: destroying an `EntityComponent` leaves the `attached`
registry entirely unchanged — its entry is not removed and a lookup of its
instance still returns it; the mapping for an instance changes only when
another component for the same instance runs (`Map.set`, last writer wins). -/
theorem claim5_destroy_leaves_registry :
    (∀ (e : EntityComponent) (m : AttachedMap), (e.destroy m).2 = m)
  ∧ (∀ (e : EntityComponent) (p : List InitAct) (m : AttachedMap),
        EntityComponent.getComponent (e.run p m).2 e.char.instanceId = some e.cid) := by
  constructor
  · intro e m
    rfl
  · intro e p m
    simp [EntityComponent.run, EntityComponent.getComponent, AttachedMap.get, AttachedMap.set,
      lookup_cons_self]

/-- Claim C6, counterexample: constructing a character wrapper whose required
root child (and humanoid) never appears within the bounded wait succeeds —
the source stores the `undefined` results of `WaitForChild` through unchecked
casts and contains no failure path, so the object is created and `run` is
still scheduled. -/
theorem claim6_construct_missing_root_succeeds :
    (CharacterComponent.construct 0 none none none).isOk = true
  ∧ CharacterComponent.construct 0 none none none
      = Except.ok (CharacterComponent.new 0 none none none)
  ∧ (CharacterComponent.new 0 none none none).runScheduled = true :=
  ⟨rfl, rfl, rfl⟩

/-- Claim C6 as amended: construction never fails, whatever the bounded waits
produce; when the required child never appears the wrapper stores an
`undefined` root and still schedules `run()`, and an `EntityComponent` built
around such a wrapper still becomes visible in the `attached` registry when it
runs. -/
theorem claim6_construct_tolerates_missing_child :
    (∀ (iid : Nat) (client rc hc : Option Nat),
        (CharacterComponent.construct iid client rc hc).isOk = true)
  ∧ (∀ (iid : Nat) (client hc : Option Nat), ∃ c : CharacterComponent,
        CharacterComponent.construct iid client none hc = Except.ok c
          ∧ c.root = none ∧ c.runScheduled = true)
  ∧ (∀ (cid iid : Nat) (client rc hc : Option Nat) (p : List InitAct) (m : AttachedMap),
        EntityComponent.getComponent
            (EntityComponent.run ⟨cid, CharacterComponent.new iid client rc hc⟩ p m).2 iid
          = some cid) := by
  refine ⟨fun iid client rc hc => rfl, ?_, ?_⟩
  · intro iid client hc
    exact ⟨CharacterComponent.new iid client none hc, rfl, rfl, rfl⟩
  · intro cid iid client rc hc p m
    simp [EntityComponent.run, EntityComponent.getComponent, AttachedMap.get, AttachedMap.set,
      CharacterComponent.new, lookup_cons_self]

/-- Claim C7: if `destroy()` is invoked synchronously during `onInit` — i.e.
the init program executed by `run` contains a `callDestroy` action — then the
guard in `run` sees the destroyed flag, `onStart` is never invoked (the ghost
counter never moves), and the object never becomes active, whatever lifecycle
calls follow. -/
theorem claim7_destroy_during_init (p : List InitAct) (hp : InitAct.callDestroy ∈ p)
    (c : BaseComponent) (ha : c.active = false) (ops : List LifecycleOp) :
    ((c.run p).applyOps ops).isActive = false
  ∧ ((c.run p).applyOps ops).startCount = c.startCount := by
  have h1 : (c.run p).destructed = true ∧ (c.run p).active = false
      ∧ (c.run p).startCount = c.startCount := by
    rw [BaseComponent.run]
    have hd := BaseComponent.runInit_destroy_mem p hp { c with initCount := c.initCount + 1 }
    rw [if_pos hd]
    exact ⟨hd, BaseComponent.runInit_active_false p _ ha,
      BaseComponent.runInit_startCount p _⟩
  have h2 := BaseComponent.applyOps_inv ops (c.run p) h1.1 h1.2.1
  rw [BaseComponent.isActive]
  exact ⟨h2.2.1, by rw [h2.2.2, h1.2.2]⟩

/-- Witness for C7: a fresh component whose `onInit` destroys it, then another
run and an explicit destroy — it never becomes active and `onStart` never ran. -/
theorem claim7_destroy_during_init_witness :
    ((BaseComponent.new.run [InitAct.callDestroy]).applyOps
        [LifecycleOp.runOp [], LifecycleOp.destroyOp]).isActive = false
  ∧ ((BaseComponent.new.run [InitAct.callDestroy]).applyOps
        [LifecycleOp.runOp [], LifecycleOp.destroyOp]).startCount
      = BaseComponent.new.startCount :=
  claim7_destroy_during_init [InitAct.callDestroy] (by decide) BaseComponent.new rfl
    [LifecycleOp.runOp [], LifecycleOp.destroyOp]

/-- Claim C8, counterexample to the equipped-half: tool 5 is discovered, its
parent changes to the owning instance (0) — equipped — and then to
`undefined`; the ancestry handler's `else if (parent !== undefined)` arm does
nothing for `undefined`, so the tool remains in the equipped set although its
parent no longer equals the owning entity's instance. -/
theorem claim8_unparented_tool_stays_equipped :
    5 ∈ ((CharacterComponent.new 0 none none none).replay
          [CharEvent.possibleTool 5 true, CharEvent.ancestry 5 (some 0),
            CharEvent.ancestry 5 none]).equipped
  ∧ ((CharacterComponent.new 0 none none none).replay
          [CharEvent.possibleTool 5 true, CharEvent.ancestry 5 (some 0),
            CharEvent.ancestry 5 none]).parentOf 5 ≠ some 0 :=
  ⟨by decide, by decide⟩

/-- Claim C8 as amended: across every discovery, ancestry-change and
external-destroy event, a tool appears in the ordered `tools` sequence iff it
appears in the `_tools` membership set (and the sequence stays duplicate-free,
so an already-tracked tool is never re-tracked); a tool in the `equipped` set
has, as its last observed parent, either the owning entity's instance or
`undefined` — reparenting to a different defined parent or external
destruction removes it, but a parent change to `undefined` leaves it equipped. -/
theorem claim8_tool_tracking_invariant (iid : Nat) (client rc hc : Option Nat)
    (evs : List CharEvent) (t : Nat) :
    (t ∈ ((CharacterComponent.new iid client rc hc).replay evs).tools
      ↔ t ∈ ((CharacterComponent.new iid client rc hc).replay evs).ttools)
  ∧ ((CharacterComponent.new iid client rc hc).replay evs).tools.Nodup
  ∧ (t ∈ ((CharacterComponent.new iid client rc hc).replay evs).equipped →
      ((CharacterComponent.new iid client rc hc).replay evs).parentOf t = some iid
        ∨ ((CharacterComponent.new iid client rc hc).replay evs).parentOf t = none) := by
  have hinv := CharacterComponent.inv_replay evs _
    (CharacterComponent.inv_new iid client rc hc)
  obtain ⟨h1, h2, h3, h4, h5, h6⟩ := hinv
  have hiid := CharacterComponent.replay_instanceId evs (CharacterComponent.new iid client rc hc)
  refine ⟨h4 t, h1, ?_⟩
  intro hx
  have := h6 t hx
  rw [hiid] at this
  exact this

/-- Witness for the amended C8: a discovered tool equipped under the instance
satisfies the invariant. -/
theorem claim8_tool_tracking_invariant_witness :
    ((CharacterComponent.new 0 none none none).replay
        [CharEvent.possibleTool 5 true, CharEvent.ancestry 5 (some 0)]).parentOf 5 = some 0
  ∨ ((CharacterComponent.new 0 none none none).replay
        [CharEvent.possibleTool 5 true, CharEvent.ancestry 5 (some 0)]).parentOf 5 = none :=
  (claim8_tool_tracking_invariant 0 none none none
    [CharEvent.possibleTool 5 true, CharEvent.ancestry 5 (some 0)] 5).2.2 (by decide)

/-- Claim C9, counterexample: the server file's `Bin.add` ends in
`return item` — it hands back the added item, not the registry, so
`registry.add(a).add(b)` chaining through the return value is not available
there. -/
theorem claim9_server_add_returns_item :
    (Bin.empty.addServer (Item.callback 0)).2 = AddRet.item (Item.callback 0)
  ∧ (Bin.empty.addServer (Item.callback 0)).2 ≠ AddRet.registry :=
  ⟨rfl, by decide⟩

/-- Claim C9 as amended: `add` appends the item at the tail with no observable
effect beyond bookkeeping (no disposal event is emitted) in both files; the
client `add` returns the registry itself (`return this`), enabling chained
registration, while the server `add` returns the added item (`return item`). -/
theorem claim9_add_appends_tail :
    (∀ (s : Bin) (i : Item),
        (s.addClient i).1.items = s.items ++ [i]
      ∧ (s.addClient i).1.trace = s.trace
      ∧ (s.addClient i).2 = AddRet.registry)
  ∧ (∀ (s : Bin) (i : Item),
        (s.addServer i).1.items = s.items ++ [i]
      ∧ (s.addServer i).1.trace = s.trace
      ∧ (s.addServer i).2 = AddRet.item i) :=
  ⟨fun _ _ => ⟨rfl, rfl, rfl⟩, fun _ _ => ⟨rfl, rfl, rfl⟩⟩

/-- Claim C10: after a completed `destroy()`, a later `add` neither fails nor
disposes the item immediately (no new trace event), it re-fills the registry
(`isEmpty()` false), and a later `destroy()` disposes exactly the items added
after the previous drain, exactly once each, leaving the registry empty. -/
theorem claim10_refill_and_second_drain (its1 its2 : List Item)
    (h1 : ∀ it ∈ its1, it.plain = true) (h2 : ∀ it ∈ its2, it.plain = true)
    (hne : its2 ≠ []) :
    (its2.foldl Bin.add (Bin.destroy (its1.length + 1) (Bin.ofItems its1))).trace
        = (Bin.destroy (its1.length + 1) (Bin.ofItems its1)).trace
  ∧ (its2.foldl Bin.add (Bin.destroy (its1.length + 1) (Bin.ofItems its1))).isEmpty = false
  ∧ (Bin.destroy (its2.length + 1)
        (its2.foldl Bin.add (Bin.destroy (its1.length + 1) (Bin.ofItems its1)))).trace
      = its1.map disposeEvent ++ its2.map disposeEvent
  ∧ (Bin.destroy (its2.length + 1)
        (its2.foldl Bin.add (Bin.destroy (its1.length + 1) (Bin.ofItems its1)))).isEmpty
      = true := by
  cases its2 with
  | nil => exact absurd rfl hne
  | cons i rest =>
    rw [Bin.destroy_ofItems its1 h1]
    rw [Bin.foldl_add_none i rest its1 [] (its1.map disposeEvent)]
    have hdrain := Bin.drainFrom_plain (i :: rest) its1 ((i :: rest).length + 1) []
      (its1.map disposeEvent) h2 (by omega)
    have hcur : Bin.cursor its1 (i :: rest) = some its1.length := rfl
    rw [hcur] at hdrain
    refine ⟨rfl, rfl, ?_, ?_⟩
    · rw [Bin.destroy, hdrain]
    · rw [Bin.destroy, hdrain]
      rfl

/-- Witness for C10. -/
theorem claim10_refill_and_second_drain_witness :
    ([Item.connection 1].foldl Bin.add
        (Bin.destroy 2 (Bin.ofItems [Item.callback 0]))).isEmpty = false
  ∧ (Bin.destroy 2 ([Item.connection 1].foldl Bin.add
        (Bin.destroy 2 (Bin.ofItems [Item.callback 0])))).trace
      = [Event.called 0, Event.disconnected 1] :=
  ⟨(claim10_refill_and_second_drain [Item.callback 0] [Item.connection 1]
      (by decide) (by decide) (by decide)).2.1,
    (claim10_refill_and_second_drain [Item.callback 0] [Item.connection 1]
      (by decide) (by decide) (by decide)).2.2.1⟩

end Scripts
